import Mathlib

/-!
Verification of the physics-and-trajectory subsystem of the engineDemo
repository: Verlet integration (Physics/Element), ray/boundary intersection
helpers (Helpers/Intersections.ts), the trajectory preview simulator
(GameObjects/Trajectory.ts) and the projectile update (GameObjects/Bullet.ts).
The code is embedded shallowly: JavaScript number arithmetic is idealised as
exact rational arithmetic, and the in-place Vec2 mutations of wtc-math are
turned into explicit state passing (each method returns the new state).
-/

attribute [local semireducible] Rat.add Rat.sub Rat.mul Rat.inv

set_option maxRecDepth 8000

namespace EngineDemo

/-- 2D vector with rational components, modelling the wtc-math Vec2 as used by
the physics core (components, add, subtract, scale). -/
structure Vec2 where
  x : ℚ
  y : ℚ
deriving DecidableEq

/-- Componentwise vector addition (wtc-math add and addNew). -/
def Vec2.add (v w : Vec2) : Vec2 := ⟨v.x + w.x, v.y + w.y⟩

/-- Componentwise vector subtraction (wtc-math subtract and subtractNew). -/
def Vec2.sub (v w : Vec2) : Vec2 := ⟨v.x - w.x, v.y - w.y⟩

/-- Scalar multiplication (wtc-math scale and scaleNew). -/
def Vec2.scale (v : Vec2) (s : ℚ) : Vec2 := ⟨v.x * s, v.y * s⟩

/-- The zero vector, the result of reset(0, 0). -/
def Vec2.zero : Vec2 := ⟨0, 0⟩

/-- State of a physics element (src/Physics/Element.ts): current position,
previous position and the force accumulator. -/
structure Element where
  position : Vec2
  oldPosition : Vec2
  acceleration : Vec2
deriving DecidableEq

/-- Element.applyForce: adds the force into the acceleration accumulator and
changes nothing else. -/
def Element.applyForce (e : Element) (force : Vec2) : Element :=
  { e with acceleration := e.acceleration.add force }

/-- The record returned by Element.integrate; the field named acceleration
holds the post-step velocity vector position - oldPosition, not the physical
acceleration. -/
structure IntegrateResult where
  acceleration : Vec2
  position : Vec2
  oldPosition : Vec2
deriving DecidableEq

/-- Element.integrate: Verlet step. velocity = position - oldPosition;
position becomes position + velocity + acceleration * delta^2; oldPosition
becomes the pre-step position; the accumulator is reset to zero. Returns the
new state paired with the record the source returns. -/
def Element.integrate (e : Element) (delta : ℚ) : Element × IntegrateResult :=
  let tp := e.position
  let velocity := e.position.sub e.oldPosition
  let newPosition := (e.position.add velocity).add (e.acceleration.scale (delta * delta))
  (⟨newPosition, tp, Vec2.zero⟩,
   ⟨newPosition.sub tp, newPosition, tp⟩)

/-- Modelled from the spec: Trajectory.update reads a ray accessor on the
physics element that is absent from the Element source included here. Per the
spec (section 4.2 design rationale and section 4.3 step 5) the wraparound logic
uses the current motion direction reconstructed from the Verlet pair, so the
accessor is position - oldPosition. -/
def Element.ray (e : Element) : Vec2 := e.position.sub e.oldPosition

/-- Math.abs on the embedded numbers, written executably so that concrete
runs of the intersection code reduce. -/
def rabs (q : ℚ) : ℚ := if q < 0 then -q else q

/-- Result record of the intersection helpers in Helpers/Intersections.ts; the
point and t fields are only present when intersects is true. -/
structure RayLineIntersectionResult where
  intersects : Bool
  point : Option Vec2
  t : Option ℚ
deriving DecidableEq

/-- Which axis-aligned boundary rayBoundaryIntersection checks. -/
inductive BoundaryType
  | vertical
  | horizontal
deriving DecidableEq

/-- rayLineIntersection: general ray versus segment intersection by the
cross-product 2x2 solve, rejecting near-parallel pairs (|dot| < 1e-6) and
parameters outside t1 >= 0, 0 <= t2 <= 1. -/
def rayLineIntersection (rayOrigin rayDirection lineStart lineEnd : Vec2) :
    RayLineIntersectionResult :=
  let v1 : Vec2 := ⟨rayOrigin.x - lineStart.x, rayOrigin.y - lineStart.y⟩
  let v2 : Vec2 := ⟨lineEnd.x - lineStart.x, lineEnd.y - lineStart.y⟩
  let v3 : Vec2 := ⟨-rayDirection.y, rayDirection.x⟩
  let dot := v2.x * v3.x + v2.y * v3.y
  if rabs dot < 1 / 1000000 then ⟨false, none, none⟩
  else
    let t1 := (v2.x * v1.y - v2.y * v1.x) / dot
    let t2 := (v1.x * v3.x + v1.y * v3.y) / dot
    if t1 ≥ 0 ∧ t2 ≥ 0 ∧ t2 ≤ 1 then
      ⟨true,
       some ⟨rayOrigin.x + rayDirection.x * t1, rayOrigin.y + rayDirection.y * t1⟩,
       some t1⟩
    else ⟨false, none, none⟩

/-- rayBoundaryIntersection: intersection of a ray with an axis-aligned
infinite boundary line, rejecting parallel rays (|component| < 1e-6) and
boundaries behind the origin (t < 0). -/
def rayBoundaryIntersection (rayOrigin rayDirection : Vec2) (boundaryValue : ℚ)
    (boundaryType : BoundaryType) : RayLineIntersectionResult :=
  match boundaryType with
  | .vertical =>
      if rabs rayDirection.x < 1 / 1000000 then ⟨false, none, none⟩
      else
        let t := (boundaryValue - rayOrigin.x) / rayDirection.x
        if t ≥ 0 then
          ⟨true, some ⟨boundaryValue, rayOrigin.y + rayDirection.y * t⟩, some t⟩
        else ⟨false, none, none⟩
  | .horizontal =>
      if rabs rayDirection.y < 1 / 1000000 then ⟨false, none, none⟩
      else
        let t := (boundaryValue - rayOrigin.y) / rayDirection.y
        if t ≥ 0 then
          ⟨true, some ⟨rayOrigin.x + rayDirection.x * t, boundaryValue⟩, some t⟩
        else ⟨false, none, none⟩

/-- The global tunable parameters of src/config.ts. The key written
"ground height" in the source is groundHeight here. -/
structure Params where
  wind : Vec2
  gravity : ℚ
  friction : ℚ
  groundHeight : ℚ
deriving DecidableEq

/-- The initial values the config assigns: wind (0,0), gravity 1,
friction 0.975, ground height 100. -/
def configParams : Params := ⟨⟨0, 0⟩, 1, 975 / 1000, 100⟩

/-- An entry of the trajectory point sequence. pt is a sample point, gap is
the null discontinuity sentinel, and noPoint records a push of the absent point
field of a failed intersection (the source pushes the destructured point even
when intersects is false, in which case it is undefined, distinct from null). -/
inductive TrajPoint
  | pt (v : Vec2)
  | gap
  | noPoint
deriving DecidableEq

/-- What this.points.push(point) appends: the carried point when the
intersection succeeded, the undefined value otherwise. -/
def pushIntersection : Option Vec2 → TrajPoint
  | some v => .pt v
  | none => .noPoint

/-- Bool test that a trajectory entry, when it is a sample point, lies at or
below the given y bound (screen-space, y grows downward). -/
def ptBelow (bound : ℚ) : TrajPoint → Bool
  | TrajPoint.pt v => decide (v.y ≤ bound)
  | _ => true

/-- The fixed sub-step of the trajectory preview, 1/60 s. -/
def timeStep : ℚ := 1 / 60

/-- The state threaded through the simulation loop of Trajectory.update: the
physics element and the points collected so far. -/
structure TrajIter where
  physics : Element
  points : List TrajPoint
deriving DecidableEq

/-- The force application and integration performed by one iteration of
Trajectory.update: gravity scaled by 50000 * timeStep, wind scaled by
50000 * timeStep, then one Verlet step over timeStep. -/
def trajIntegrate (p : Params) (e : Element) : Element × IntegrateResult :=
  ((e.applyForce ⟨0, p.gravity * 50000 * timeStep⟩).applyForce
      (p.wind.scale (50000 * timeStep))).integrate timeStep

/-- One iteration i of the for loop of Trajectory.update: sample every third
iteration, apply forces and integrate, then either stop on the ground, wrap
through the left or right edge (recording the boundary crossing, a null gap
and the post-teleport position, and rebuilding oldPosition from the
velocity-like vector integrate returned), or continue unchanged. The Bool is
true when the loop breaks. -/
def trajStep (p : Params) (dims : Vec2) (i : ℕ) (st : TrajIter) :
    TrajIter × Bool :=
  let pts0 :=
    if i % 3 = 0 then st.points ++ [TrajPoint.pt st.physics.position]
    else st.points
  let er := trajIntegrate p st.physics
  let e2 := er.1
  let res := er.2
  if e2.position.y > dims.y - p.groundHeight then
    (⟨e2, pts0 ++ [TrajPoint.pt e2.position]⟩, true)
  else if e2.position.x < 0 then
    let r := rayBoundaryIntersection e2.oldPosition e2.ray 0 .vertical
    let e3 : Element := { e2 with position := ⟨dims.x, e2.position.y⟩ }
    let e4 : Element := { e3 with oldPosition := e3.position.sub res.acceleration }
    (⟨e4, pts0 ++ [pushIntersection r.point, TrajPoint.gap, TrajPoint.pt e4.position]⟩,
     false)
  else if e2.position.x > dims.x then
    let r := rayBoundaryIntersection e2.oldPosition e2.ray dims.x .vertical
    let e3 : Element := { e2 with position := ⟨0, e2.position.y⟩ }
    let e4 : Element := { e3 with oldPosition := e3.position.sub res.acceleration }
    (⟨e4, pts0 ++ [pushIntersection r.point, TrajPoint.gap, TrajPoint.pt e4.position]⟩,
     false)
  else (⟨e2, pts0⟩, false)

/-- The for loop of Trajectory.update, by remaining fuel: starting at index i
with 200 - i iterations left, run trajStep until it breaks or fuel runs out. -/
def trajLoop (p : Params) (dims : Vec2) : ℕ → ℕ → TrajIter → TrajIter
  | 0, _, st => st
  | fuel + 1, i, st =>
      let s := trajStep p dims i st
      if s.2 then s.1 else trajLoop p dims fuel (i + 1) s.1

/-- The externally visible state of a Trajectory object. -/
structure TrajState where
  physics : Element
  points : List TrajPoint
  needsUpdate : Bool
  needsRedraw : Bool
deriving DecidableEq

/-- Trajectory.trigger: reinstall a fresh element at startPos with oldPosition
startPos - velocity, and mark the trajectory dirty. -/
def Trajectory.trigger (startPos velocity : Vec2) (t : TrajState) : TrajState :=
  { t with physics := ⟨startPos, startPos.sub velocity, Vec2.zero⟩,
           needsUpdate := true }

/-- Trajectory.update: no-op unless dirty; otherwise clear the points and run
the fixed-timestep loop for up to 200 iterations, then clear the dirty flag
and mark the render dirty. deltaTime is accepted and never read. -/
def Trajectory.update (p : Params) (dims : Vec2) (deltaTime : ℚ)
    (t : TrajState) : TrajState :=
  if t.needsUpdate = false then t
  else
    let r := trajLoop p dims 200 0 ⟨t.physics, []⟩
    ⟨r.physics, r.points, false, true⟩

/-- The state of a Bullet object. Its GameObject position aliases the physics
element position (the constructor hands this.position to the Element), so it
is represented by the physics position alone. -/
structure Bullet where
  physics : Element
  radius : ℚ
  isDestroyed : Bool
deriving DecidableEq

/-- The position of a bullet as read by Bullet.update: the (aliased) physics
position. -/
def Bullet.position (b : Bullet) : Vec2 := b.physics.position

/-- The Bullet constructor: the stored position is the given position shifted
by -radius on both axes, and the element is seeded with
oldPosition = position - velocity. -/
def Bullet.create (position velocity : Vec2) (radius : ℚ) : Bullet :=
  let corner : Vec2 := ⟨position.x - radius, position.y - radius⟩
  ⟨⟨corner, corner.sub velocity, Vec2.zero⟩, radius, false⟩

/-- Bullet.update: apply gravity and wind scaled by the real deltaTime,
integrate once, then set the destroyed flag when the bottom edge passed the
ground line or the x position left [0, width]. The position is not modified by
either check. -/
def Bullet.update (p : Params) (dims : Vec2) (deltaTime : ℚ) (b : Bullet) :
    Bullet :=
  let e0 := b.physics.applyForce ⟨0, p.gravity * 50000 * deltaTime⟩
  let e1 := e0.applyForce (p.wind.scale (50000 * deltaTime))
  let e2 := (e1.integrate deltaTime).1
  let b1 : Bullet := { b with physics := e2 }
  let bottom := e2.position.y + b1.radius
  let b2 : Bullet :=
    if bottom > dims.y - p.groundHeight then { b1 with isDestroyed := true }
    else b1
  if e2.position.x < 0 ∨ e2.position.x > dims.x then
    { b2 with isDestroyed := true }
  else b2

/-! Theorems settling the claims. -/

/-- rabs agrees with the absolute value. -/
theorem rabs_eq_abs (q : ℚ) : rabs q = |q| := by
  unfold rabs
  split
  · rw [abs_of_neg (by assumption)]
  · rw [abs_of_nonneg (not_lt.mp (by assumption))]


/-- Claim C2: integrate updates the state to position p + (p - q) + a * d^2,
oldPosition = pre-step position, acceleration = (0,0), and returns a record
whose position and oldPosition equal the new state and whose acceleration
field is the post-step velocity vector; with zero acceleration the new
position is exactly p + (p - q). -/
theorem C2_integrate_spec (e : Element) (d : ℚ) :
    (e.integrate d).1.position =
      (e.position.add (e.position.sub e.oldPosition)).add
        (e.acceleration.scale (d * d)) ∧
    (e.integrate d).1.oldPosition = e.position ∧
    (e.integrate d).1.acceleration = Vec2.zero ∧
    (e.integrate d).2.position = (e.integrate d).1.position ∧
    (e.integrate d).2.oldPosition = e.position ∧
    (e.integrate d).2.acceleration = ((e.integrate d).1.position).sub e.position ∧
    (e.acceleration = Vec2.zero →
      (e.integrate d).1.position = e.position.add (e.position.sub e.oldPosition)) := by
  refine ⟨rfl, rfl, rfl, rfl, rfl, rfl, fun h => ?_⟩
  simp [Element.integrate, Vec2.add, Vec2.sub, Vec2.scale, Vec2.zero, h]

/-- Witness for C2 at a concrete element with zero acceleration. -/
theorem C2_integrate_spec_witness :
    (Element.mk ⟨1, 2⟩ ⟨0, 0⟩ Vec2.zero).acceleration = Vec2.zero ∧
    ((Element.mk ⟨1, 2⟩ ⟨0, 0⟩ Vec2.zero).integrate (1 / 60)).1.position =
      Vec2.add ⟨1, 2⟩ (Vec2.sub ⟨1, 2⟩ ⟨0, 0⟩) :=
  ⟨rfl, (C2_integrate_spec ⟨⟨1, 2⟩, ⟨0, 0⟩, Vec2.zero⟩ (1 / 60)).2.2.2.2.2.2 rfl⟩

/-- Claim C7: applying forces F1 then F2 before one integrate yields the same
element state and return value as F2 then F1, and applyForce adds its argument
into the acceleration accumulator and changes nothing else. -/
theorem C7_applyForce_order_independent (e : Element) (f1 f2 : Vec2) (d : ℚ) :
    (e.applyForce f1).applyForce f2 = (e.applyForce f2).applyForce f1 ∧
    ((e.applyForce f1).applyForce f2).integrate d =
      ((e.applyForce f2).applyForce f1).integrate d ∧
    (e.applyForce f1).position = e.position ∧
    (e.applyForce f1).oldPosition = e.oldPosition ∧
    (e.applyForce f1).acceleration = e.acceleration.add f1 := by
  have hcomm : (e.applyForce f1).applyForce f2 = (e.applyForce f2).applyForce f1 := by
    simp only [Element.applyForce, Vec2.add, Element.mk.injEq, Vec2.mk.injEq,
      true_and]
    exact ⟨by ring, by ring⟩
  exact ⟨hcomm, by rw [hcomm], rfl, rfl, rfl⟩

/-- Claim C8: with no pending trigger (needsUpdate false), Trajectory.update
returns the trajectory unchanged, so neither the point sequence nor the
physics element is mutated. -/
theorem C8_idle_update_noop (p : Params) (dims : Vec2) (dt : ℚ) (t : TrajState)
    (h : t.needsUpdate = false) :
    Trajectory.update p dims dt t = t := by
  simp [Trajectory.update, h]

/-- Witness for C8 at a concrete idle trajectory state. -/
theorem C8_idle_update_noop_witness :
    (TrajState.mk ⟨⟨1, 1⟩, ⟨0, 0⟩, Vec2.zero⟩ [] false false).needsUpdate = false ∧
    Trajectory.update configParams ⟨800, 600⟩ (1 / 60)
        (TrajState.mk ⟨⟨1, 1⟩, ⟨0, 0⟩, Vec2.zero⟩ [] false false) =
      TrajState.mk ⟨⟨1, 1⟩, ⟨0, 0⟩, Vec2.zero⟩ [] false false :=
  ⟨rfl, C8_idle_update_noop _ _ _ _ rfl⟩

/-- Claim C6: the point sequence Trajectory.update produces does not depend on
the deltaTime argument; every sub-step uses the fixed timestep 1/60. -/
theorem C6_points_deltaTime_independent (p : Params) (dims : Vec2)
    (d1 d2 : ℚ) (t : TrajState) :
    (Trajectory.update p dims d1 t).points =
      (Trajectory.update p dims d2 t).points := rfl

/-- One trajectory iteration does not read the friction parameter. -/
theorem trajStep_friction_eq (w : Vec2) (g f1 f2 gh : ℚ) (dims : Vec2)
    (i : ℕ) (st : TrajIter) :
    trajStep ⟨w, g, f1, gh⟩ dims i st = trajStep ⟨w, g, f2, gh⟩ dims i st := rfl

/-- The trajectory loop does not read the friction parameter. -/
theorem trajLoop_friction_eq (w : Vec2) (g f1 f2 gh : ℚ) (dims : Vec2) :
    ∀ (fuel i : ℕ) (st : TrajIter),
      trajLoop ⟨w, g, f1, gh⟩ dims fuel i st =
        trajLoop ⟨w, g, f2, gh⟩ dims fuel i st := by
  intro fuel
  induction fuel with
  | zero => intro i st; rfl
  | succ n ih =>
      intro i st
      simp only [trajLoop]
      rw [trajStep_friction_eq w g f1 f2 gh dims i st]
      by_cases hb : (trajStep ⟨w, g, f2, gh⟩ dims i st).2 = true
      · simp [hb]
      · simp only [Bool.not_eq_true] at hb
        simp [hb, ih]

/-- Claim C10: for any two values of the friction parameter, Trajectory.update
and Bullet.update (and through them Element.applyForce and Element.integrate,
which take no parameters at all) produce identical states from identical
starting states, while the configuration exposes friction = 0.975. -/
theorem C10_friction_independence (w : Vec2) (g f1 f2 gh : ℚ) (dims : Vec2)
    (dt : ℚ) (t : TrajState) (b : Bullet) :
    Trajectory.update ⟨w, g, f1, gh⟩ dims dt t =
      Trajectory.update ⟨w, g, f2, gh⟩ dims dt t ∧
    Bullet.update ⟨w, g, f1, gh⟩ dims dt b =
      Bullet.update ⟨w, g, f2, gh⟩ dims dt b ∧
    configParams.friction = 975 / 1000 := by
  refine ⟨?_, rfl, rfl⟩
  by_cases h : t.needsUpdate = false
  · simp [Trajectory.update, h]
  · simp [Trajectory.update, h, trajLoop_friction_eq w g f1 f2 gh dims]

/-- Claim C3: rayBoundaryIntersection on a vertical boundary misses exactly
when |d.x| < 1e-6 or t = (b - o.x) / d.x is negative, and otherwise returns
that t and the point (b, o.y + d.y * t); symmetrically on y for a horizontal
boundary; the (5,5)/(1,1)/x=10 ray hits (10,10) at t = 5 and the
(10,0)/(1,0)/x=5 ray misses. -/
theorem C3_rayBoundary_spec (o d : Vec2) (b : ℚ) :
    ((rayBoundaryIntersection o d b .vertical).intersects = false ↔
      |d.x| < 1 / 1000000 ∨ (b - o.x) / d.x < 0) ∧
    ((rayBoundaryIntersection o d b .vertical).intersects = true →
      (rayBoundaryIntersection o d b .vertical).t = some ((b - o.x) / d.x) ∧
      (rayBoundaryIntersection o d b .vertical).point =
        some ⟨b, o.y + d.y * ((b - o.x) / d.x)⟩) ∧
    ((rayBoundaryIntersection o d b .horizontal).intersects = false ↔
      |d.y| < 1 / 1000000 ∨ (b - o.y) / d.y < 0) ∧
    ((rayBoundaryIntersection o d b .horizontal).intersects = true →
      (rayBoundaryIntersection o d b .horizontal).t = some ((b - o.y) / d.y) ∧
      (rayBoundaryIntersection o d b .horizontal).point =
        some ⟨o.x + d.x * ((b - o.y) / d.y), b⟩) ∧
    rayBoundaryIntersection ⟨5, 5⟩ ⟨1, 1⟩ 10 .vertical =
      ⟨true, some ⟨10, 10⟩, some 5⟩ ∧
    rayBoundaryIntersection ⟨10, 0⟩ ⟨1, 0⟩ 5 .vertical = ⟨false, none, none⟩ := by
  refine ⟨?_, ?_, ?_, ?_, by decide, by decide⟩
  · rw [show |d.x| = rabs d.x from (rabs_eq_abs d.x).symm]
    unfold rayBoundaryIntersection
    dsimp only
    split_ifs with h1 h2
    · exact iff_of_true rfl (Or.inl h1)
    · exact iff_of_false (by simp) (fun hc => hc.elim h1 (not_lt.mpr h2))
    · exact iff_of_true rfl (Or.inr (not_le.mp h2))
  · intro hi
    unfold rayBoundaryIntersection at hi ⊢
    dsimp only at hi ⊢
    split_ifs at hi ⊢ with h1 h2
    exact ⟨rfl, rfl⟩
  · rw [show |d.y| = rabs d.y from (rabs_eq_abs d.y).symm]
    unfold rayBoundaryIntersection
    dsimp only
    split_ifs with h1 h2
    · exact iff_of_true rfl (Or.inl h1)
    · exact iff_of_false (by simp) (fun hc => hc.elim h1 (not_lt.mpr h2))
    · exact iff_of_true rfl (Or.inr (not_le.mp h2))
  · intro hi
    unfold rayBoundaryIntersection at hi ⊢
    dsimp only at hi ⊢
    split_ifs at hi ⊢ with h1 h2
    exact ⟨rfl, rfl⟩

/-- Witness for C3 at the ray from (5,5) along (1,1) against x = 10. -/
theorem C3_rayBoundary_spec_witness :
    (rayBoundaryIntersection ⟨5, 5⟩ ⟨1, 1⟩ 10 .vertical).intersects = true ∧
    (rayBoundaryIntersection ⟨5, 5⟩ ⟨1, 1⟩ 10 .vertical).t =
      some ((10 - (5 : ℚ)) / 1) ∧
    (rayBoundaryIntersection ⟨5, 5⟩ ⟨1, 1⟩ 10 .vertical).point =
      some ⟨10, 5 + 1 * ((10 - (5 : ℚ)) / 1)⟩ :=
  ⟨by decide, (C3_rayBoundary_spec ⟨5, 5⟩ ⟨1, 1⟩ 10).2.1 (by decide)⟩

/-- Claim C5: for a live bullet, Bullet.update sets isDestroyed exactly when
the bottom edge passed the ground line or the x position left [0, width]; the
physics state is exactly the force-and-integrate result, so a live projectile
is never wrapped and its position is unaffected by the destruction check. -/
theorem C5_bullet_destruction (p : Params) (dims : Vec2) (dt : ℚ) (b : Bullet)
    (h : b.isDestroyed = false) :
    ((Bullet.update p dims dt b).isDestroyed = true ↔
      ((Bullet.update p dims dt b).position.y + b.radius >
          dims.y - p.groundHeight ∨
       (Bullet.update p dims dt b).position.x < 0 ∨
       (Bullet.update p dims dt b).position.x > dims.x)) ∧
    (Bullet.update p dims dt b).physics =
      (((b.physics.applyForce ⟨0, p.gravity * 50000 * dt⟩).applyForce
          (p.wind.scale (50000 * dt))).integrate dt).1 ∧
    (Bullet.update p dims dt b).radius = b.radius := by
  by_cases h1 :
      (((b.physics.applyForce ⟨0, p.gravity * 50000 * dt⟩).applyForce
          (p.wind.scale (50000 * dt))).integrate dt).1.position.y + b.radius >
        dims.y - p.groundHeight
  all_goals by_cases h2 :
      (((b.physics.applyForce ⟨0, p.gravity * 50000 * dt⟩).applyForce
          (p.wind.scale (50000 * dt))).integrate dt).1.position.x < 0 ∨
      (((b.physics.applyForce ⟨0, p.gravity * 50000 * dt⟩).applyForce
          (p.wind.scale (50000 * dt))).integrate dt).1.position.x > dims.x
  all_goals simp [Bullet.update, Bullet.position, h, h1, h2]

/-- Witness for C5 at a concrete live bullet under the config parameters. -/
theorem C5_bullet_destruction_witness :
    (Bullet.create ⟨100, 100⟩ ⟨5, 5⟩ 5).isDestroyed = false ∧
    (Bullet.update configParams ⟨800, 600⟩ (1 / 60)
        (Bullet.create ⟨100, 100⟩ ⟨5, 5⟩ 5)).radius =
      (Bullet.create ⟨100, 100⟩ ⟨5, 5⟩ 5).radius :=
  ⟨rfl, (C5_bullet_destruction configParams ⟨800, 600⟩ (1 / 60)
      (Bullet.create ⟨100, 100⟩ ⟨5, 5⟩ 5) rfl).2.2⟩

/-- Claim C9: whenever rayLineIntersection reports a hit with point P and
parameter t, then in exact arithmetic P = rayOrigin + t * rayDirection with
t >= 0, and P lies on the segment: P = lineStart + u * (lineEnd - lineStart)
for some u in [0, 1]. -/
theorem C9_rayLine_sound (o d s e : Vec2) (P : Vec2) (t : ℚ)
    (hi : (rayLineIntersection o d s e).intersects = true)
    (hP : (rayLineIntersection o d s e).point = some P)
    (ht : (rayLineIntersection o d s e).t = some t) :
    P = ⟨o.x + d.x * t, o.y + d.y * t⟩ ∧ 0 ≤ t ∧
    ∃ u : ℚ, 0 ≤ u ∧ u ≤ 1 ∧
      P = ⟨s.x + u * (e.x - s.x), s.y + u * (e.y - s.y)⟩ := by
  unfold rayLineIntersection at hi hP ht
  dsimp only at hi hP ht
  split_ifs at hi hP ht with h1 h2
  have hPeq := (Option.some.inj hP).symm
  have hteq := (Option.some.inj ht).symm
  subst hPeq
  subst hteq
  set dd := (e.x - s.x) * -d.y + (e.y - s.y) * d.x with hdd
  have hdot : dd ≠ 0 := by
    intro h0
    exact h1 (by rw [h0]; norm_num [rabs])
  refine ⟨rfl, h2.1, ?_⟩
  refine ⟨((o.x - s.x) * -d.y + (o.y - s.y) * d.x) / dd, h2.2.1, h2.2.2, ?_⟩
  have hx : o.x + d.x * (((e.x - s.x) * (o.y - s.y) - (e.y - s.y) * (o.x - s.x)) / dd) =
      s.x + ((o.x - s.x) * -d.y + (o.y - s.y) * d.x) / dd * (e.x - s.x) := by
    field_simp
    rw [hdd]
    ring
  have hy : o.y + d.y * (((e.x - s.x) * (o.y - s.y) - (e.y - s.y) * (o.x - s.x)) / dd) =
      s.y + ((o.x - s.x) * -d.y + (o.y - s.y) * d.x) / dd * (e.y - s.y) := by
    field_simp
    rw [hdd]
    ring
  exact congrArg₂ Vec2.mk hx hy

/-- Witness for C9 at a concrete ray that does hit the segment. -/
theorem C9_rayLine_sound_witness :
    (rayLineIntersection ⟨0, 0⟩ ⟨1, 0⟩ ⟨5, -1⟩ ⟨5, 1⟩).intersects = true ∧
    ((⟨5, 0⟩ : Vec2) = ⟨0 + 1 * (5 : ℚ), 0 + 0 * (5 : ℚ)⟩ ∧ (0 : ℚ) ≤ 5 ∧
      ∃ u : ℚ, 0 ≤ u ∧ u ≤ 1 ∧
        (⟨5, 0⟩ : Vec2) = ⟨5 + u * ((5 : ℚ) - 5), -1 + u * (1 - (-1 : ℚ))⟩) :=
  ⟨by decide,
   C9_rayLine_sound ⟨0, 0⟩ ⟨1, 0⟩ ⟨5, -1⟩ ⟨5, 1⟩ ⟨5, 0⟩ 5
     (by decide) (by decide) (by decide)⟩

/-- Subtracting a difference from its minuend recovers the subtrahend, componentwise. -/
theorem Vec2.sub_sub_cancel (a b : Vec2) : a.sub (a.sub b) = b := by
  simp [Vec2.sub]

/-- Ground break step: whenever the post-integration y is past the ground
line, the iteration records that position as the final point and breaks. -/
theorem trajStep_break (p : Params) (dims : Vec2) (i : ℕ) (st : TrajIter)
    (hg : (trajIntegrate p st.physics).1.position.y > dims.y - p.groundHeight) :
    trajStep p dims i st =
      (⟨(trajIntegrate p st.physics).1,
        (if i % 3 = 0 then st.points ++ [TrajPoint.pt st.physics.position]
         else st.points) ++ [TrajPoint.pt (trajIntegrate p st.physics).1.position]⟩,
       true) := by
  unfold trajStep
  dsimp only
  rw [if_pos hg]

/-- One iteration under zero wind and a clean accumulator: the post-integration
y follows the Verlet closed form with per-step gravity gain 25/108 * gravity,
and when the ground is not reached the iteration does not break, keeps that y,
stores the pre-step y as oldPosition.y, and leaves the accumulator clean. -/
theorem trajStep_y (p : Params) (dims : Vec2) (i : ℕ) (st : TrajIter)
    (hw : p.wind = ⟨0, 0⟩) (hacc : st.physics.acceleration = Vec2.zero) :
    (trajIntegrate p st.physics).1.position.y =
      st.physics.position.y + (st.physics.position.y - st.physics.oldPosition.y) +
        p.gravity * (25 / 108) ∧
    (¬((trajIntegrate p st.physics).1.position.y > dims.y - p.groundHeight) →
      (trajStep p dims i st).2 = false ∧
      (trajStep p dims i st).1.physics.position.y =
        (trajIntegrate p st.physics).1.position.y ∧
      (trajStep p dims i st).1.physics.oldPosition.y = st.physics.position.y ∧
      (trajStep p dims i st).1.physics.acceleration = Vec2.zero) := by
  constructor
  · unfold trajIntegrate Element.applyForce Element.integrate
    dsimp only
    rw [hw, hacc]
    show st.physics.position.y + _ + _ = _
    dsimp only [Vec2.add, Vec2.sub, Vec2.scale, Vec2.zero, timeStep]
    ring
  · intro hng
    unfold trajStep
    dsimp only
    rw [if_neg hng]
    generalize (if i % 3 = 0 then st.points ++ [TrajPoint.pt st.physics.position]
      else st.points) = pts0
    split_ifs with hxl hxr
    · refine ⟨rfl, rfl, ?_, rfl⟩
      show ((⟨dims.x, (trajIntegrate p st.physics).1.position.y⟩ : Vec2).sub
          (trajIntegrate p st.physics).2.acceleration).y = _
      have hacc2 : (trajIntegrate p st.physics).2.acceleration.y =
          (trajIntegrate p st.physics).1.position.y -
            (trajIntegrate p st.physics).1.oldPosition.y := rfl
      have hold : (trajIntegrate p st.physics).1.oldPosition = st.physics.position := rfl
      dsimp only [Vec2.sub]
      rw [hacc2, hold]
      ring
    · refine ⟨rfl, rfl, ?_, rfl⟩
      show ((⟨0, (trajIntegrate p st.physics).1.position.y⟩ : Vec2).sub
          (trajIntegrate p st.physics).2.acceleration).y = _
      have hacc2 : (trajIntegrate p st.physics).2.acceleration.y =
          (trajIntegrate p st.physics).1.position.y -
            (trajIntegrate p st.physics).1.oldPosition.y := rfl
      have hold : (trajIntegrate p st.physics).1.oldPosition = st.physics.position := rfl
      dsimp only [Vec2.sub]
      rw [hacc2, hold]
      ring
    · exact ⟨rfl, rfl, rfl, rfl⟩

/-- Under zero wind, a loop whose Verlet closed form passes the ground line
within the remaining fuel breaks on the ground with that crossing recorded as
the final point. -/
theorem trajLoop_hits_ground (p : Params) (dims : Vec2) (hw : p.wind = ⟨0, 0⟩) :
    ∀ (fuel i : ℕ) (st : TrajIter),
      st.physics.acceleration = Vec2.zero →
      st.physics.position.y ≤ dims.y - p.groundHeight →
      dims.y - p.groundHeight <
        st.physics.position.y +
          (fuel : ℚ) * (st.physics.position.y - st.physics.oldPosition.y) +
          p.gravity * (25 / 108) * ((fuel : ℚ) * ((fuel : ℚ) + 1)) / 2 →
      ∃ q : Vec2,
        (trajLoop p dims fuel i st).points.getLast? = some (TrajPoint.pt q) ∧
        dims.y - p.groundHeight < q.y := by
  intro fuel
  induction fuel with
  | zero =>
      intro i st hacc hle hreach
      push_cast at hreach
      linarith
  | succ n ih =>
      intro i st hacc hle hreach
      obtain ⟨hY, hnobrk⟩ := trajStep_y p dims i st hw hacc
      by_cases hg : (trajIntegrate p st.physics).1.position.y > dims.y - p.groundHeight
      · refine ⟨(trajIntegrate p st.physics).1.position, ?_, hg⟩
        have hstep := trajStep_break p dims i st hg
        simp only [trajLoop]
        rw [hstep]
        simp only [if_pos]
        exact List.getLast?_concat _
      · obtain ⟨hb2, hpy, hqy, hacc2⟩ := hnobrk hg
        have hreach2 : dims.y - p.groundHeight <
            (trajStep p dims i st).1.physics.position.y +
              (n : ℚ) * ((trajStep p dims i st).1.physics.position.y -
                (trajStep p dims i st).1.physics.oldPosition.y) +
              p.gravity * (25 / 108) * ((n : ℚ) * ((n : ℚ) + 1)) / 2 := by
          have hEq : (trajStep p dims i st).1.physics.position.y +
              (n : ℚ) * ((trajStep p dims i st).1.physics.position.y -
                (trajStep p dims i st).1.physics.oldPosition.y) +
              p.gravity * (25 / 108) * ((n : ℚ) * ((n : ℚ) + 1)) / 2 =
              st.physics.position.y +
                ((n : ℚ) + 1) * (st.physics.position.y - st.physics.oldPosition.y) +
                p.gravity * (25 / 108) * (((n : ℚ) + 1) * (((n : ℚ) + 1) + 1)) / 2 := by
            rw [hpy, hqy, hY]
            ring
          rw [hEq]
          push_cast at hreach
          exact hreach
        have hle2 : (trajStep p dims i st).1.physics.position.y ≤
            dims.y - p.groundHeight := by
          rw [hpy]
          exact not_lt.mp hg
        have hrec := ih (i + 1) (trajStep p dims i st).1 hacc2 hle2 hreach2
        simp only [trajLoop]
        rw [hb2]
        simpa using hrec

/-- A purely vertical, in-bounds, above-ground iteration: no break, no wrap,
position advances by the Verlet closed form, x stays put. -/
theorem trajStep_still (p : Params) (dims : Vec2) (i : ℕ) (st : TrajIter)
    (hw : p.wind = ⟨0, 0⟩) (hacc : st.physics.acceleration = Vec2.zero)
    (hvx : st.physics.oldPosition.x = st.physics.position.x)
    (hx0 : 0 ≤ st.physics.position.x) (hx1 : st.physics.position.x ≤ dims.x)
    (hng : ¬(st.physics.position.y +
        (st.physics.position.y - st.physics.oldPosition.y) +
        p.gravity * (25 / 108) > dims.y - p.groundHeight)) :
    trajStep p dims i st =
      (⟨⟨⟨st.physics.position.x,
          st.physics.position.y + (st.physics.position.y - st.physics.oldPosition.y) +
            p.gravity * (25 / 108)⟩,
         st.physics.position, Vec2.zero⟩,
        if i % 3 = 0 then st.points ++ [TrajPoint.pt st.physics.position]
        else st.points⟩,
       false) := by
  have hE : (trajIntegrate p st.physics).1 =
      ⟨⟨st.physics.position.x,
        st.physics.position.y + (st.physics.position.y - st.physics.oldPosition.y) +
          p.gravity * (25 / 108)⟩,
       st.physics.position, Vec2.zero⟩ := by
    unfold trajIntegrate Element.applyForce Element.integrate
    dsimp only
    rw [hw, hacc]
    dsimp only [Vec2.add, Vec2.sub, Vec2.scale, Vec2.zero, timeStep]
    simp only [Element.mk.injEq, Vec2.mk.injEq]
    refine ⟨⟨?_, ?_⟩, trivial, trivial⟩
    · rw [hvx]; ring
    · ring
  have hpair : trajIntegrate p st.physics =
      (⟨⟨st.physics.position.x,
         st.physics.position.y + (st.physics.position.y - st.physics.oldPosition.y) +
           p.gravity * (25 / 108)⟩,
        st.physics.position, Vec2.zero⟩, (trajIntegrate p st.physics).2) := by
    rw [← hE]
  unfold trajStep
  dsimp only
  rw [hpair]
  dsimp only
  rw [if_neg hng, if_neg (not_lt.mpr hx0), if_neg (not_lt.mpr hx1)]

/-- Under zero wind, nonnegative gravity, purely vertical in-bounds motion and
a Verlet closed form that stays below B <= ground line for the whole remaining
fuel, the loop never breaks or wraps: every recorded point stays below B and
the point list can only grow. -/
theorem trajLoop_stays_low (p : Params) (dims : Vec2) (B : ℚ)
    (hw : p.wind = ⟨0, 0⟩) (hg0 : 0 ≤ p.gravity) (hB : B ≤ dims.y - p.groundHeight) :
    ∀ (fuel i : ℕ) (st : TrajIter),
      st.physics.acceleration = Vec2.zero →
      st.physics.oldPosition.x = st.physics.position.x →
      0 ≤ st.physics.position.x → st.physics.position.x ≤ dims.x →
      0 ≤ st.physics.position.y - st.physics.oldPosition.y →
      st.physics.position.y ≤ B →
      st.physics.position.y +
          (fuel : ℚ) * (st.physics.position.y - st.physics.oldPosition.y) +
          p.gravity * (25 / 108) * ((fuel : ℚ) * ((fuel : ℚ) + 1)) / 2 ≤ B →
      (∀ tp ∈ st.points, ∀ v, tp = TrajPoint.pt v → v.y ≤ B) →
      (∀ tp ∈ (trajLoop p dims fuel i st).points, ∀ v, tp = TrajPoint.pt v → v.y ≤ B) ∧
        ((trajLoop p dims fuel i st).points = [] → st.points = []) := by
  intro fuel
  induction fuel with
  | zero =>
      intro i st _ _ _ _ _ _ _ hmem
      exact ⟨hmem, fun h => h⟩
  | succ n ih =>
      intro i st hacc hvx hx0 hx1 hv hpy hfut hmem
      have hn0 : (0 : ℚ) ≤ (n : ℚ) := Nat.cast_nonneg n
      have hA : (0 : ℚ) ≤ p.gravity * (25 / 108) :=
        mul_nonneg hg0 (by norm_num)
      have he2y : st.physics.position.y +
          (st.physics.position.y - st.physics.oldPosition.y) +
          p.gravity * (25 / 108) ≤ B := by
        push_cast at hfut
        nlinarith [mul_nonneg hn0 hv, mul_nonneg hA hn0,
          mul_nonneg (mul_nonneg hA hn0) hn0]
      have hng : ¬(st.physics.position.y +
          (st.physics.position.y - st.physics.oldPosition.y) +
          p.gravity * (25 / 108) > dims.y - p.groundHeight) :=
        not_lt.mpr (le_trans he2y hB)
      have hstep := trajStep_still p dims i st hw hacc hvx hx0 hx1 hng
      simp only [trajLoop]
      rw [hstep]
      dsimp only
      have hrec := ih (i + 1)
        ⟨⟨⟨st.physics.position.x,
           st.physics.position.y + (st.physics.position.y - st.physics.oldPosition.y) +
             p.gravity * (25 / 108)⟩,
          st.physics.position, Vec2.zero⟩,
         if i % 3 = 0 then st.points ++ [TrajPoint.pt st.physics.position]
         else st.points⟩
        rfl rfl hx0 hx1
        (by dsimp only; linarith)
        he2y
        (by
          dsimp only
          push_cast at hfut ⊢
          linarith)
        (by
          dsimp only
          intro tp htp v hveq
          by_cases h3 : i % 3 = 0
          · rw [if_pos h3] at htp
            rcases List.mem_append.mp htp with hin | hin
            · exact hmem tp hin v hveq
            · rw [List.mem_singleton] at hin
              rw [hin] at hveq
              have : v = st.physics.position := (TrajPoint.pt.inj hveq.symm)
              rw [this]
              exact hpy
          · rw [if_neg h3] at htp
            exact hmem tp htp v hveq)
      refine ⟨hrec.1, fun h0 => ?_⟩
      have hmid := hrec.2 h0
      dsimp only at hmid
      by_cases h3 : i % 3 = 0
      · rw [if_pos h3] at hmid
        exact absurd hmid (by simp)
      · rw [if_neg h3] at hmid
        exact hmid

/-- Claim C4 (amended): whenever a post-integration position lies past the
ground line the iteration records it as the final point and breaks; and a
gravity-only simulation (zero wind, positive gravity) triggered from above the
ground line ends with its last recorded point past the ground line provided
the Verlet closed form reaches the ground within the 200-iteration budget
(ground distance < 200 vy + gravity * 25/108 * 20100); without that proviso
the cap can be exhausted first (see the counterexample). -/
theorem C4_ground_termination :
    (∀ (p : Params) (dims : Vec2) (i : ℕ) (st : TrajIter),
       (trajIntegrate p st.physics).1.position.y > dims.y - p.groundHeight →
       trajStep p dims i st =
         (⟨(trajIntegrate p st.physics).1,
           (if i % 3 = 0 then st.points ++ [TrajPoint.pt st.physics.position]
            else st.points) ++ [TrajPoint.pt (trajIntegrate p st.physics).1.position]⟩,
          true)) ∧
    (∀ (p : Params) (dims : Vec2) (dt : ℚ) (st : TrajState) (x0 y0 vx vy : ℚ),
       p.wind = ⟨0, 0⟩ → 0 < p.gravity →
       y0 ≤ dims.y - p.groundHeight →
       dims.y - p.groundHeight < y0 + 200 * vy + p.gravity * (25 / 108) * 20100 →
       ∃ q : Vec2,
         (Trajectory.update p dims dt
             (Trajectory.trigger ⟨x0, y0⟩ ⟨vx, vy⟩ st)).points.getLast? =
           some (TrajPoint.pt q) ∧
         dims.y - p.groundHeight < q.y) := by
  refine ⟨trajStep_break, ?_⟩
  intro p dims dt st x0 y0 vx vy hw hg habove hreach
  have hupdate : (Trajectory.update p dims dt
      (Trajectory.trigger ⟨x0, y0⟩ ⟨vx, vy⟩ st)).points =
      (trajLoop p dims 200 0
        ⟨⟨⟨x0, y0⟩, Vec2.sub ⟨x0, y0⟩ ⟨vx, vy⟩, Vec2.zero⟩, []⟩).points := rfl
  rw [hupdate]
  apply trajLoop_hits_ground p dims hw 200 0
      ⟨⟨⟨x0, y0⟩, Vec2.sub ⟨x0, y0⟩ ⟨vx, vy⟩, Vec2.zero⟩, []⟩ rfl habove
  dsimp only [Vec2.sub]
  push_cast
  linarith

/-- Witness for C4 under the config parameters from rest at (500, 0) over a
1000 x 1000 playfield. -/
theorem C4_ground_termination_witness :
    (0 : ℚ) < configParams.gravity ∧
    (1000 : ℚ) - configParams.groundHeight <
      0 + 200 * 0 + configParams.gravity * (25 / 108) * 20100 ∧
    ∃ q : Vec2,
      (Trajectory.update configParams ⟨1000, 1000⟩ (1 / 60)
          (Trajectory.trigger ⟨500, 0⟩ ⟨0, 0⟩
            ⟨⟨⟨0, 0⟩, ⟨0, 0⟩, Vec2.zero⟩, [], true, false⟩)).points.getLast? =
        some (TrajPoint.pt q) ∧
      (1000 : ℚ) - configParams.groundHeight < q.y :=
  ⟨by norm_num [configParams], by norm_num [configParams],
   C4_ground_termination.2 configParams ⟨1000, 1000⟩ (1 / 60)
     ⟨⟨⟨0, 0⟩, ⟨0, 0⟩, Vec2.zero⟩, [], true, false⟩ 500 0 0 0 rfl
     (by norm_num [configParams]) (by norm_num [configParams])
     (by norm_num [configParams])⟩

/-- Counterexample to C4 as stated: with tiny positive gravity 1/100000, zero
wind, triggered from rest at (500, 0) above the ground line 900, every
recorded point of the run stays at y <= 1, far above the ground line, so the
200-iteration cap is exhausted without the last point reaching it. -/
theorem C4_counterexample :
    (Trajectory.update ⟨⟨0, 0⟩, 1 / 100000, 975 / 1000, 100⟩ ⟨1000, 1000⟩ (1 / 60)
        (Trajectory.trigger ⟨500, 0⟩ ⟨0, 0⟩
          ⟨⟨⟨0, 0⟩, ⟨0, 0⟩, Vec2.zero⟩, [], true, false⟩)).points.all
      (ptBelow 1) = true ∧
    (Trajectory.update ⟨⟨0, 0⟩, 1 / 100000, 975 / 1000, 100⟩ ⟨1000, 1000⟩ (1 / 60)
        (Trajectory.trigger ⟨500, 0⟩ ⟨0, 0⟩
          ⟨⟨⟨0, 0⟩, ⟨0, 0⟩, Vec2.zero⟩, [], true, false⟩)).points ≠ [] ∧
    (1 : ℚ) < 1000 - 100 := by
  have hupd : (Trajectory.update ⟨⟨0, 0⟩, 1 / 100000, 975 / 1000, 100⟩ ⟨1000, 1000⟩
      (1 / 60) (Trajectory.trigger ⟨500, 0⟩ ⟨0, 0⟩
        ⟨⟨⟨0, 0⟩, ⟨0, 0⟩, Vec2.zero⟩, [], true, false⟩)).points =
      (trajLoop ⟨⟨0, 0⟩, 1 / 100000, 975 / 1000, 100⟩ ⟨1000, 1000⟩ 200 0
        ⟨⟨⟨500, 0⟩, Vec2.sub ⟨500, 0⟩ ⟨0, 0⟩, Vec2.zero⟩, []⟩).points := rfl
  have hsub : Vec2.sub ⟨500, 0⟩ ⟨0, 0⟩ = (⟨500, 0⟩ : Vec2) := by decide
  rw [hsub] at hupd
  have hstep : trajStep ⟨⟨0, 0⟩, 1 / 100000, 975 / 1000, 100⟩ ⟨1000, 1000⟩ 0
      ⟨⟨⟨500, 0⟩, ⟨500, 0⟩, Vec2.zero⟩, []⟩ =
      (⟨⟨⟨500, 1 / 432000⟩, ⟨500, 0⟩, Vec2.zero⟩, [TrajPoint.pt ⟨500, 0⟩]⟩, false) := by
    decide
  have hloop : (trajLoop ⟨⟨0, 0⟩, 1 / 100000, 975 / 1000, 100⟩ ⟨1000, 1000⟩ 200 0
      ⟨⟨⟨500, 0⟩, ⟨500, 0⟩, Vec2.zero⟩, []⟩).points =
      (trajLoop ⟨⟨0, 0⟩, 1 / 100000, 975 / 1000, 100⟩ ⟨1000, 1000⟩ 199 1
        ⟨⟨⟨500, 1 / 432000⟩, ⟨500, 0⟩, Vec2.zero⟩, [TrajPoint.pt ⟨500, 0⟩]⟩).points := by
    conv_lhs => rw [show (200 : ℕ) = 199 + 1 from rfl]
    rw [trajLoop]
    rw [hstep]
    simp
  rw [hloop] at hupd
  have key := trajLoop_stays_low ⟨⟨0, 0⟩, 1 / 100000, 975 / 1000, 100⟩ ⟨1000, 1000⟩ 1
    rfl (by norm_num) (by norm_num) 199 1
    ⟨⟨⟨500, 1 / 432000⟩, ⟨500, 0⟩, Vec2.zero⟩, [TrajPoint.pt ⟨500, 0⟩]⟩
    rfl rfl (by norm_num) (by norm_num) (by norm_num) (by norm_num)
    (by push_cast; norm_num)
    (by
      intro tp htp v hveq
      rw [List.mem_singleton] at htp
      rw [htp] at hveq
      rw [(TrajPoint.pt.inj hveq.symm)]
      norm_num)
  refine ⟨?_, ?_, by norm_num⟩
  · rw [hupd]
    apply List.all_eq_true.mpr
    intro tp htp
    cases tp with
    | pt v => exact decide_eq_true (key.1 _ htp v rfl)
    | gap => rfl
    | noPoint => rfl
  · rw [hupd]
    intro h0
    have := key.2 h0
    simp at this

/-- Claim C1 (amended): in an iteration whose post-integration x is out of
bounds (left: x < 0, right: x > width) that did not hit the ground, provided
the motion ray genuinely crosses the boundary (pre-step x inside the crossed
edge, |ray.x| >= 1e-6), the point sequence receives, in order, the exact
ray/boundary crossing point, the null gap sentinel and the point at the
opposite edge; the loop does not break, oldPosition is rebuilt from the
velocity-like vector integrate returned, and the full pre-wrap velocity
(hence the vertical velocity sign) is preserved: the new state's ray equals
the returned vector, which equals the pre-wrap ray. Without the crossing
proviso the source pushes the undefined point of the failed intersection
instead (see the counterexample). -/
theorem C1_wrap_behaviour (p : Params) (dims : Vec2) (i : ℕ) (st : TrajIter)
    (e2 : Element) (res : IntegrateResult)
    (her : trajIntegrate p st.physics = (e2, res))
    (hng : ¬(e2.position.y > dims.y - p.groundHeight)) :
    (e2.position.x < 0 → 0 ≤ e2.oldPosition.x → ¬(rabs e2.ray.x < 1 / 1000000) →
      trajStep p dims i st =
        (⟨⟨⟨dims.x, e2.position.y⟩,
           Vec2.sub ⟨dims.x, e2.position.y⟩ res.acceleration, e2.acceleration⟩,
          (if i % 3 = 0 then st.points ++ [TrajPoint.pt st.physics.position]
           else st.points) ++
            [TrajPoint.pt ⟨0, e2.oldPosition.y +
                e2.ray.y * ((0 - e2.oldPosition.x) / e2.ray.x)⟩,
             TrajPoint.gap, TrajPoint.pt ⟨dims.x, e2.position.y⟩]⟩, false) ∧
      (⟨⟨dims.x, e2.position.y⟩,
        Vec2.sub ⟨dims.x, e2.position.y⟩ res.acceleration,
        e2.acceleration⟩ : Element).ray = res.acceleration ∧
      res.acceleration = e2.ray) ∧
    (e2.position.x > dims.x → e2.oldPosition.x ≤ dims.x → 0 ≤ dims.x →
      ¬(rabs e2.ray.x < 1 / 1000000) →
      trajStep p dims i st =
        (⟨⟨⟨0, e2.position.y⟩,
           Vec2.sub ⟨0, e2.position.y⟩ res.acceleration, e2.acceleration⟩,
          (if i % 3 = 0 then st.points ++ [TrajPoint.pt st.physics.position]
           else st.points) ++
            [TrajPoint.pt ⟨dims.x, e2.oldPosition.y +
                e2.ray.y * ((dims.x - e2.oldPosition.x) / e2.ray.x)⟩,
             TrajPoint.gap, TrajPoint.pt ⟨0, e2.position.y⟩]⟩, false) ∧
      (⟨⟨0, e2.position.y⟩,
        Vec2.sub ⟨0, e2.position.y⟩ res.acceleration,
        e2.acceleration⟩ : Element).ray = res.acceleration ∧
      res.acceleration = e2.ray) := by
  have hresacc : res.acceleration = e2.ray := by
    have h1 : (trajIntegrate p st.physics).1 = e2 := by rw [her]
    have h2 : (trajIntegrate p st.physics).2 = res := by rw [her]
    rw [← h1, ← h2]
    rfl
  constructor
  · intro hx hox hray
    have hrayx : e2.ray.x < 0 := by
      have hd : e2.ray.x = e2.position.x - e2.oldPosition.x := rfl
      rw [hd]
      linarith
    have ht : (0 - e2.oldPosition.x) / e2.ray.x ≥ 0 := by
      apply div_nonneg_of_nonpos <;> linarith
    refine ⟨?_, Vec2.sub_sub_cancel _ _, hresacc⟩
    unfold trajStep
    rw [her]
    dsimp only
    rw [if_neg hng, if_pos hx]
    unfold rayBoundaryIntersection
    dsimp only
    rw [if_neg hray, if_pos ht]
    rfl
  · intro hx hox hdx hray
    have hnl : ¬(e2.position.x < 0) := by
      push_neg
      linarith
    have hrayx : 0 < e2.ray.x := by
      have hd : e2.ray.x = e2.position.x - e2.oldPosition.x := rfl
      rw [hd]
      linarith
    have ht : (dims.x - e2.oldPosition.x) / e2.ray.x ≥ 0 := by
      apply div_nonneg <;> linarith
    refine ⟨?_, Vec2.sub_sub_cancel _ _, hresacc⟩
    unfold trajStep
    rw [her]
    dsimp only
    rw [if_neg hng, if_neg hnl, if_pos hx]
    unfold rayBoundaryIntersection
    dsimp only
    rw [if_neg hray, if_pos ht]
    rfl

/-- Witness for C1 at a left wrap: one step from position (2, 100), previous
position (12, 100) under the config parameters on an 800 x 600 playfield. -/
theorem C1_wrap_behaviour_witness :
    trajIntegrate configParams ⟨⟨2, 100⟩, ⟨12, 100⟩, Vec2.zero⟩ =
      (⟨⟨-8, 100 + 25 / 108⟩, ⟨2, 100⟩, ⟨0, 0⟩⟩,
       ⟨⟨-10, 25 / 108⟩, ⟨-8, 100 + 25 / 108⟩, ⟨2, 100⟩⟩) ∧
    (-8 : ℚ) < 0 ∧
    trajStep configParams ⟨800, 600⟩ 0 ⟨⟨⟨2, 100⟩, ⟨12, 100⟩, Vec2.zero⟩, []⟩ =
      (⟨⟨⟨800, 100 + 25 / 108⟩,
         Vec2.sub ⟨800, 100 + 25 / 108⟩ ⟨-10, 25 / 108⟩, ⟨0, 0⟩⟩,
        [TrajPoint.pt ⟨2, 100⟩,
         TrajPoint.pt ⟨0, 100 + (25 / 108) * ((0 - (2 : ℚ)) / (-10))⟩,
         TrajPoint.gap, TrajPoint.pt ⟨800, 100 + 25 / 108⟩]⟩, false) :=
  ⟨by decide, by decide,
   by
    have h := ((C1_wrap_behaviour configParams ⟨800, 600⟩ 0
        ⟨⟨⟨2, 100⟩, ⟨12, 100⟩, Vec2.zero⟩, []⟩
        ⟨⟨-8, 100 + 25 / 108⟩, ⟨2, 100⟩, ⟨0, 0⟩⟩
        ⟨⟨-10, 25 / 108⟩, ⟨-8, 100 + 25 / 108⟩, ⟨2, 100⟩⟩
        (by decide) (by decide)).1 (by decide) (by decide) (by decide)).1
    rw [h]
    decide⟩

/-- Counterexample to C1 as stated: one iteration from rest at (-5, 0) under
the config parameters. The post-integration position has x = -5 < 0 and the
ground is not hit, but the motion ray is vertical, so the boundary
intersection fails and the sequence receives the undefined point of the
failed intersection, not an exact crossing point, before the null sentinel. -/
theorem C1_counterexample :
    trajStep configParams ⟨800, 600⟩ 0 ⟨⟨⟨-5, 0⟩, ⟨-5, 0⟩, Vec2.zero⟩, []⟩ =
      (⟨⟨⟨800, 25 / 108⟩, ⟨800, 0⟩, ⟨0, 0⟩⟩,
        [TrajPoint.pt ⟨-5, 0⟩, TrajPoint.noPoint, TrajPoint.gap,
         TrajPoint.pt ⟨800, 25 / 108⟩]⟩, false) := by
  decide

end EngineDemo
